import Mathlib

/-!
Shallow embedding of `logica_cotizador.py` (class `GestorCotizaciones`) and
proofs about its catalog/selection manager.

Modelling decisions:
* A quotation item is the Python tuple `(nombre, precio, categoria)`; prices are
  modelled as integers (no claim depends on floating-point behaviour).
* The Python dict `comentarios` is an insertion-ordered association list with
  unique keys, with `dictGet` / `dictSet` / `dictDel` mirroring `d.get(k, "")`,
  `d[k] = v` and `del d[k]`.
* The JSON file is the inductive `Storage`: absent file, malformed JSON,
  other read error, or a list of well-formed records.  `json.dump` of the
  serialised catalog is modelled by `guardar_cotizaciones_en_json` returning
  the record list that is written.
* Methods are functions from the manager state (and arguments) to the new
  state plus their return value; methods that write the JSON file also return
  the written storage.
-/

/-- One catalog line item: the Python tuple `(nombre, precio, categoria)`. -/
structure Item where
  nombre : String
  precio : Int
  categoria : String
  deriving DecidableEq, Repr

/-- Lookup in the association list modelling the Python dict `comentarios`:
`m.get(k)` returning the first binding of `k` (keys are unique in practice). -/
def dictGet (m : List (Item × String)) (k : Item) : Option String :=
  match m with
  | [] => none
  | (k1, v1) :: rest => if k1 = k then some v1 else dictGet rest k

/-- `m[k] = v` on the Python dict: replace the binding in place, or append. -/
def dictSet (m : List (Item × String)) (k : Item) (v : String) : List (Item × String) :=
  match m with
  | [] => [(k, v)]
  | (k1, v1) :: rest => if k1 = k then (k, v) :: rest else (k1, v1) :: dictSet rest k v

/-- `del m[k]` on the Python dict: drop the binding of `k`. -/
def dictDel (m : List (Item × String)) (k : Item) : List (Item × String) :=
  match m with
  | [] => []
  | (k1, v1) :: rest => if k1 = k then rest else (k1, v1) :: dictDel rest k

/-- The in-memory state of `GestorCotizaciones`. -/
structure Gestor where
  cotizaciones_base : List Item
  cotizaciones_disponibles : List Item
  cotizaciones_seleccionadas : List Item
  comentarios : List (Item × String)
  deriving DecidableEq, Repr

/-- One record of the JSON file: required `nombre` / `precio` / `categoria`
fields and an optional `comentario` field. -/
structure Registro where
  nombre : String
  precio : Int
  categoria : String
  comentario : Option String
  deriving DecidableEq, Repr

/-- The state of the storage resource `cotizaciones.json` as seen by a load:
missing file, file whose content fails to parse as JSON, any other read
error, or a parsed list of well-formed records. -/
inductive Storage where
  | ausente : Storage
  | malformado : Storage
  | errorLectura : Storage
  | datos : List Registro → Storage
  deriving DecidableEq, Repr

/-- `item = (cotizacion["nombre"], cotizacion["precio"], cotizacion["categoria"])`. -/
def registroAItem (r : Registro) : Item :=
  { nombre := r.nombre, precio := r.precio, categoria := r.categoria }

/-- `cargar_cotizaciones_desde_json`: build the state from storage.  On data:
`base` from the records, `comentarios` from the records whose `comentario`
field is present and non-empty (Python truthiness), `disponibles` a copy of
`base`, `seleccionadas` empty; returns `True`.  On a missing file: all empty,
`True`.  On a JSON decode error or any other read error the `except` branches
set all four fields empty and return `False` — no exception escapes. -/
def cargar_cotizaciones_desde_json (st : Storage) : Gestor × Bool :=
  match st with
  | Storage.datos rs =>
      let base := rs.map registroAItem
      let coms := rs.foldl (fun m r =>
        match r.comentario with
        | some s => if s ≠ "" then dictSet m (registroAItem r) s else m
        | none => m) []
      ({ cotizaciones_base := base
         cotizaciones_disponibles := base
         cotizaciones_seleccionadas := []
         comentarios := coms }, true)
  | Storage.ausente =>
      ({ cotizaciones_base := []
         cotizaciones_disponibles := []
         cotizaciones_seleccionadas := []
         comentarios := [] }, true)
  | Storage.malformado =>
      ({ cotizaciones_base := []
         cotizaciones_disponibles := []
         cotizaciones_seleccionadas := []
         comentarios := [] }, false)
  | Storage.errorLectura =>
      ({ cotizaciones_base := []
         cotizaciones_disponibles := []
         cotizaciones_seleccionadas := []
         comentarios := [] }, false)

/-- `guardar_cotizaciones_en_json`: the record list written to the file — one
record per `base` item in order, with `comentario` the mapped comment when the
item is a key of `comentarios` and `""` otherwise (always present). -/
def guardar_cotizaciones_en_json (g : Gestor) : List Registro :=
  g.cotizaciones_base.map (fun item =>
    { nombre := item.nombre
      precio := item.precio
      categoria := item.categoria
      comentario := some ((dictGet g.comentarios item).getD "") })

/-- `cargar_cotizaciones_iniciales`: no-op when `base` is non-empty or no
initial list is supplied (`None`/`[]` are both falsy); otherwise adopt the
list as `base`, copy it to `disponibles`, clear `seleccionadas` (and save). -/
def cargar_cotizaciones_iniciales (g : Gestor) (iniciales : List Item) : Gestor :=
  if g.cotizaciones_base ≠ [] then g
  else if iniciales ≠ [] then
    { g with
        cotizaciones_base := iniciales
        cotizaciones_disponibles := iniciales
        cotizaciones_seleccionadas := [] }
  else g

/-- `filtrar_disponibles_por_categoria`: recompute `disponibles` from `base`
keeping the items that are not in `seleccionadas` and, unless the category is
the sentinel `"Todas"`, whose category equals the given one.  Returns the new
`disponibles` list. -/
def filtrar_disponibles_por_categoria (g : Gestor) (categoria : String) : Gestor × List Item :=
  let disp :=
    if categoria = "Todas" then
      g.cotizaciones_base.filter (fun item =>
        decide (item ∉ g.cotizaciones_seleccionadas))
    else
      g.cotizaciones_base.filter (fun item =>
        decide (item.categoria = categoria ∧ item ∉ g.cotizaciones_seleccionadas))
  ({ g with cotizaciones_disponibles := disp }, disp)

/-- `agregar_a_seleccionadas`: refuse (return `False`) when the item is
already selected; otherwise append it to `seleccionadas` and `list.remove` it
from `disponibles` when present there.  No save. -/
def agregar_a_seleccionadas (g : Gestor) (item : Item) : Gestor × Bool :=
  if item ∈ g.cotizaciones_seleccionadas then (g, false)
  else
    ({ g with
        cotizaciones_seleccionadas := g.cotizaciones_seleccionadas ++ [item]
        cotizaciones_disponibles :=
          if item ∈ g.cotizaciones_disponibles then
            g.cotizaciones_disponibles.erase item
          else g.cotizaciones_disponibles }, true)

/-- `quitar_de_seleccionadas`: refuse (return `False`) when the item is not
selected; otherwise `list.remove` it from `seleccionadas` and append it to
`disponibles` when it is in `base` and not already available.  No save. -/
def quitar_de_seleccionadas (g : Gestor) (item : Item) : Gestor × Bool :=
  if item ∉ g.cotizaciones_seleccionadas then (g, false)
  else
    ({ g with
        cotizaciones_seleccionadas := g.cotizaciones_seleccionadas.erase item
        cotizaciones_disponibles :=
          if item ∈ g.cotizaciones_base ∧ item ∉ g.cotizaciones_disponibles then
            g.cotizaciones_disponibles ++ [item]
          else g.cotizaciones_disponibles }, true)

/-- `calcular_total`: sum of the selected prices. -/
def calcular_total (g : Gestor) : Int :=
  (g.cotizaciones_seleccionadas.map Item.precio).sum

/-- `nueva_cotizacion`: restore `disponibles` to a copy of `base` and clear
`seleccionadas`.  No save. -/
def nueva_cotizacion (g : Gestor) : Gestor :=
  { g with
      cotizaciones_disponibles := g.cotizaciones_base
      cotizaciones_seleccionadas := [] }

/-- `agregar_nueva_cotizacion_base`: append the new tuple to `base` and to
`disponibles` (no uniqueness check), save, and return the new item together
with the storage written by the save. -/
def agregar_nueva_cotizacion_base (g : Gestor) (nombre : String) (precio : Int)
    (categoria : String) : Gestor × Item × Storage :=
  let nueva : Item := { nombre := nombre, precio := precio, categoria := categoria }
  let g2 := { g with
      cotizaciones_base := g.cotizaciones_base ++ [nueva]
      cotizaciones_disponibles := g.cotizaciones_disponibles ++ [nueva] }
  (g2, nueva, Storage.datos (guardar_cotizaciones_en_json g2))

/-- `obtener_comentario`: `self.comentarios.get(item, "")`. -/
def obtener_comentario (g : Gestor) (item : Item) : String :=
  (dictGet g.comentarios item).getD ""

/-- `establecer_comentario`: set `comentarios[item]`, then save the whole
catalog; returns the new state and the storage written by the save. -/
def establecer_comentario (g : Gestor) (item : Item) (comentario : String) :
    Gestor × Storage :=
  let g2 := { g with comentarios := dictSet g.comentarios item comentario }
  (g2, Storage.datos (guardar_cotizaciones_en_json g2))

/-- `eliminar_cotizacion_base`: `False` (and no save) when the item is not in
`base`; otherwise `list.remove` its first occurrence from `base`, from
`disponibles` and from `seleccionadas` where present, `del` its comment if
mapped, save, and return `True` with the written storage. -/
def eliminar_cotizacion_base (g : Gestor) (item : Item) : Gestor × Bool × Option Storage :=
  if item ∉ g.cotizaciones_base then (g, false, none)
  else
    let g2 : Gestor :=
      { cotizaciones_base := g.cotizaciones_base.erase item
        cotizaciones_disponibles :=
          if item ∈ g.cotizaciones_disponibles then
            g.cotizaciones_disponibles.erase item
          else g.cotizaciones_disponibles
        cotizaciones_seleccionadas :=
          if item ∈ g.cotizaciones_seleccionadas then
            g.cotizaciones_seleccionadas.erase item
          else g.cotizaciones_seleccionadas
        comentarios :=
          if (dictGet g.comentarios item).isSome then
            dictDel g.comentarios item
          else g.comentarios }
    (g2, true, some (Storage.datos (guardar_cotizaciones_en_json g2)))

/-- The worksheet content built by a successful export: header row, one data
row per selected item in order, and the total row value. -/
structure LibroExcel where
  encabezados : List String
  filas : List Item
  total : Int
  deriving DecidableEq, Repr

/-- The dict returned by `exportar_a_excel`: success with the file path and
its content, or failure with a message. -/
inductive ResultadoExport where
  | exito : String → LibroExcel → ResultadoExport
  | fallo : String → ResultadoExport
  deriving DecidableEq, Repr

/-- `exportar_a_excel`: capability failure when `openpyxl` is unavailable,
empty-selection failure when nothing is selected, otherwise a workbook listing
the selection with its total, saved under a timestamped name.  The manager
state is never mutated. -/
def exportar_a_excel (openpyxl_disponible : Bool) (fecha_hora : String) (g : Gestor) :
    Gestor × ResultadoExport :=
  if ¬ openpyxl_disponible then
    (g, ResultadoExport.fallo "El módulo \x27openpyxl\x27 no está instalado.")
  else if g.cotizaciones_seleccionadas = [] then
    (g, ResultadoExport.fallo "No hay items en la cotización actual.")
  else
    (g, ResultadoExport.exito ("cotizacion_" ++ fecha_hora ++ ".xlsx")
      { encabezados := ["Descripción", "Precio (CRC)", "Categoría"]
        filas := g.cotizaciones_seleccionadas
        total := calcular_total g })

/-- The partition invariant of C1: available equals base as a set, selected
is empty; hence the two are disjoint and their union is base as a set. -/
def invarianteParticion (g : Gestor) : Prop :=
  (∀ x, x ∈ g.cotizaciones_disponibles ↔ x ∈ g.cotizaciones_base)
  ∧ g.cotizaciones_seleccionadas = []
  ∧ (∀ x, ¬ (x ∈ g.cotizaciones_disponibles ∧ x ∈ g.cotizaciones_seleccionadas))
  ∧ (∀ x, (x ∈ g.cotizaciones_disponibles ∨ x ∈ g.cotizaciones_seleccionadas)
      ↔ x ∈ g.cotizaciones_base)

/-- Concrete items and states used by witnesses and counterexamples. -/
def itemA : Item := { nombre := "A", precio := 10, categoria := "X" }

def itemB : Item := { nombre := "B", precio := 20, categoria := "Y" }

def gestorW : Gestor :=
  { cotizaciones_base := [itemA, itemB]
    cotizaciones_disponibles := [itemA, itemB]
    cotizaciones_seleccionadas := []
    comentarios := [] }

/-- C1: immediately after a successful load from storage and immediately
after a reset via `nueva_cotizacion`, the partition invariant holds:
available equals base as a set, selected is empty, hence available and
selected are disjoint and their union is base as a set. -/
theorem claim_C1 :
    (∀ st, (cargar_cotizaciones_desde_json st).2 = true →
      invarianteParticion (cargar_cotizaciones_desde_json st).1)
    ∧ (∀ g, invarianteParticion (nueva_cotizacion g)) := by
  constructor
  · intro st h
    cases st <;>
      simp_all [cargar_cotizaciones_desde_json, invarianteParticion]
  · intro g
    simp [nueva_cotizacion, invarianteParticion]

/-- Witness for C1 at the absent-storage load and a concrete reset. -/
theorem claim_C1_witness :
    invarianteParticion (cargar_cotizaciones_desde_json Storage.ausente).1
    ∧ invarianteParticion (nueva_cotizacion gestorW) :=
  ⟨claim_C1.1 Storage.ausente rfl, claim_C1.2 gestorW⟩

/-- C6: when the storage content fails to parse as JSON, or any other read
error occurs, the load initialises base, available, selected and comments all
to empty and returns `false` instead of letting an exception escape (the
embedded load is a total function). -/
theorem claim_C6 :
    cargar_cotizaciones_desde_json Storage.malformado =
      ({ cotizaciones_base := []
         cotizaciones_disponibles := []
         cotizaciones_seleccionadas := []
         comentarios := [] }, false)
    ∧ cargar_cotizaciones_desde_json Storage.errorLectura =
      ({ cotizaciones_base := []
         cotizaciones_disponibles := []
         cotizaciones_seleccionadas := []
         comentarios := [] }, false) :=
  ⟨rfl, rfl⟩

/-- C7: export returns a structured failure, never an exception: a
capability message when `openpyxl` is absent, a distinct empty-selection
message when nothing is selected; in both failure cases the state is returned
unchanged and no success artifact (file) is produced. -/
theorem claim_C7 :
    ∀ g fecha_hora,
      exportar_a_excel false fecha_hora g
        = (g, ResultadoExport.fallo "El módulo \x27openpyxl\x27 no está instalado.")
      ∧ (g.cotizaciones_seleccionadas = [] →
          exportar_a_excel true fecha_hora g
            = (g, ResultadoExport.fallo "No hay items en la cotización actual."))
      ∧ ("El módulo \x27openpyxl\x27 no está instalado." : String)
          ≠ "No hay items en la cotización actual."
      ∧ (∀ archivo libro, g.cotizaciones_seleccionadas = [] →
          exportar_a_excel true fecha_hora g ≠ (g, ResultadoExport.exito archivo libro)) := by
  intro g fecha_hora
  refine ⟨by simp [exportar_a_excel], ?_, by decide, ?_⟩
  · intro h
    simp [exportar_a_excel, h]
  · intro archivo libro h
    simp [exportar_a_excel, h]

/-- Witness for C7 on a concrete manager with an empty selection. -/
theorem claim_C7_witness :
    exportar_a_excel true "20250101_0000" gestorW
      = (gestorW, ResultadoExport.fallo "No hay items en la cotización actual.") :=
  (claim_C7 gestorW "20250101_0000").2.1 rfl

/-- A concrete manager for the C3 witness: one item of category `"X"`. -/
def gestorW3 : Gestor :=
  { cotizaciones_base := [itemA]
    cotizaciones_disponibles := [itemA]
    cotizaciones_seleccionadas := []
    comentarios := [] }

/-- C3: filtering recomputes `disponibles` as exactly the entries of `base`
(in base order) whose category equals the token — all of `base` for the
sentinel `"Todas"` — and that are not selected; `base` and `seleccionadas`
are unchanged; a token matching no category yields `[]`; the sentinel yields
base minus selected. -/
theorem claim_C3 :
    ∀ g c,
      (filtrar_disponibles_por_categoria g c).1.cotizaciones_base = g.cotizaciones_base
      ∧ (filtrar_disponibles_por_categoria g c).1.cotizaciones_seleccionadas
          = g.cotizaciones_seleccionadas
      ∧ (c ≠ "Todas" →
          (filtrar_disponibles_por_categoria g c).1.cotizaciones_disponibles
            = g.cotizaciones_base.filter (fun item =>
                decide (item.categoria = c ∧ item ∉ g.cotizaciones_seleccionadas)))
      ∧ (c = "Todas" →
          (filtrar_disponibles_por_categoria g c).1.cotizaciones_disponibles
            = g.cotizaciones_base.filter (fun item =>
                decide (item ∉ g.cotizaciones_seleccionadas)))
      ∧ ((∀ item ∈ g.cotizaciones_base, item.categoria ≠ c) → c ≠ "Todas" →
          (filtrar_disponibles_por_categoria g c).1.cotizaciones_disponibles = []) := by
  intro g c
  by_cases hc : c = "Todas"
  · subst hc
    refine ⟨rfl, rfl, fun h => absurd rfl h, fun _ => rfl, fun _ h => absurd rfl h⟩
  · refine ⟨rfl, rfl, fun _ => ?_, fun h => absurd h hc, fun hnone _ => ?_⟩
    · simp [filtrar_disponibles_por_categoria, hc]
    · simp only [filtrar_disponibles_por_categoria, if_neg hc]
      rw [List.filter_eq_nil_iff]
      intro item hmem
      simpa using fun hcat => absurd hcat (hnone item hmem)

/-- Witness for C3: a category present nowhere in the base yields an empty
`disponibles`, and the sentinel reproduces base minus selected. -/
theorem claim_C3_witness :
    (filtrar_disponibles_por_categoria gestorW3 "Z").1.cotizaciones_disponibles = []
    ∧ (filtrar_disponibles_por_categoria gestorW3 "Todas").1.cotizaciones_disponibles
        = gestorW3.cotizaciones_base.filter (fun item =>
            decide (item ∉ gestorW3.cotizaciones_seleccionadas)) :=
  ⟨(claim_C3 gestorW3 "Z").2.2.2.2 (by decide) (by decide),
   (claim_C3 gestorW3 "Todas").2.2.2.1 rfl⟩

/-- Evaluating `dictGet` through `dictSet`: the set key reads back the set
value and every other key is unaffected. -/
theorem dictGet_dictSet (m : List (Item × String)) (k k2 : Item) (v : String) :
    dictGet (dictSet m k v) k2 = if k = k2 then some v else dictGet m k2 := by
  induction m with
  | nil => simp [dictSet, dictGet]
  | cons p rest ih =>
      obtain ⟨k1, v1⟩ := p
      by_cases h1 : k1 = k
      · by_cases h2 : k1 = k2
        · simp [dictSet, dictGet, h1, h2, h1.symm.trans h2]
        · have hk2 : ¬ k = k2 := fun h => h2 (h1.trans h)
          simp [dictSet, dictGet, h1, h2, hk2]
      · by_cases h2 : k1 = k2
        · have hk2 : ¬ k = k2 := fun h => h1 (h2.trans h.symm)
          have hk : ¬ k2 = k := fun h => h1 (h2.trans h)
          simp [dictSet, dictGet, h1, h2, hk2, hk, ih]
        · simp [dictSet, dictGet, h1, h2, ih]

/-- C5: a set comment reads back exactly; reading an identity never mapped
gives `""` (never an error — `obtener_comentario` is total); and setting a
comment performs a full catalog save even when the identity is not in `base`
(the write is the serialisation of the whole updated catalog). -/
theorem claim_C5 :
    ∀ g item s,
      obtener_comentario (establecer_comentario g item s).1 item = s
      ∧ (dictGet g.comentarios item = none → obtener_comentario g item = "")
      ∧ (item ∉ g.cotizaciones_base →
          (establecer_comentario g item s).2
            = Storage.datos (guardar_cotizaciones_en_json
                { g with comentarios := dictSet g.comentarios item s })) := by
  intro g item s
  refine ⟨?_, ?_, fun _ => rfl⟩
  · simp [obtener_comentario, establecer_comentario, dictGet_dictSet]
  · intro h
    simp [obtener_comentario, h]

/-- Witness for C5 on a fresh manager and an identity outside its base. -/
theorem claim_C5_witness :
    obtener_comentario (establecer_comentario gestorW3 itemB "hola").1 itemB = "hola"
    ∧ obtener_comentario gestorW3 itemB = ""
    ∧ (establecer_comentario gestorW3 itemB "hola").2
        = Storage.datos (guardar_cotizaciones_en_json
            { gestorW3 with comentarios := dictSet gestorW3.comentarios itemB "hola" }) :=
  ⟨(claim_C5 gestorW3 itemB "hola").1,
   (claim_C5 gestorW3 itemB "hola").2.1 rfl,
   (claim_C5 gestorW3 itemB "hola").2.2 (by decide)⟩

/-- An `agregar_a_seleccionadas` call on an unselected item, spelled out. -/
theorem agregar_of_not_mem (g : Gestor) (item : Item)
    (h1 : item ∉ g.cotizaciones_seleccionadas) :
    (agregar_a_seleccionadas g item).1 =
      { g with
          cotizaciones_seleccionadas := g.cotizaciones_seleccionadas ++ [item]
          cotizaciones_disponibles :=
            if item ∈ g.cotizaciones_disponibles then
              g.cotizaciones_disponibles.erase item
            else g.cotizaciones_disponibles } := by
  simp [agregar_a_seleccionadas, h1]

/-- A `quitar_de_seleccionadas` call on a selected item, spelled out. -/
theorem quitar_of_mem (g : Gestor) (item : Item)
    (h : item ∈ g.cotizaciones_seleccionadas) :
    (quitar_de_seleccionadas g item).1 =
      { g with
          cotizaciones_seleccionadas := g.cotizaciones_seleccionadas.erase item
          cotizaciones_disponibles :=
            if item ∈ g.cotizaciones_base ∧ item ∉ g.cotizaciones_disponibles then
              g.cotizaciones_disponibles ++ [item]
            else g.cotizaciones_disponibles } := by
  simp [quitar_de_seleccionadas, h]

/-- A reachable state in which the round trip of C4 fails: the item is
already selected (base `[A]`, available `[]`, selected `[A]`). -/
def gestorC4 : Gestor :=
  { cotizaciones_base := [itemA]
    cotizaciones_disponibles := []
    cotizaciones_seleccionadas := [itemA]
    comentarios := [] }

/-- A reachable state in which `itemA` is in `base` but filtered out of
`disponibles` (e.g. after `filtrar_disponibles_por_categoria "Z"`). -/
def gestorC4b : Gestor :=
  { cotizaciones_base := [itemA]
    cotizaciones_disponibles := []
    cotizaciones_seleccionadas := []
    comentarios := [] }

/-- Counterexample to C4 as stated, at two concrete states.  For `gestorC4`
(item already selected) `agregar_a_seleccionadas` is a refused no-op but
`quitar_de_seleccionadas` still moves the item out of `seleccionadas`, so
the selected-set changes.  For `gestorC4b` (item in `base` but filtered out
of `disponibles`) the round trip appends the item to `disponibles`, so the
available-set changes. -/
theorem claim_C4_cex :
    (itemA ∈ gestorC4.cotizaciones_seleccionadas
      ∧ itemA ∉ (quitar_de_seleccionadas
          (agregar_a_seleccionadas gestorC4 itemA).1 itemA).1.cotizaciones_seleccionadas)
    ∧ (itemA ∉ gestorC4b.cotizaciones_disponibles
      ∧ itemA ∈ (quitar_de_seleccionadas
          (agregar_a_seleccionadas gestorC4b itemA).1 itemA).1.cotizaciones_disponibles) := by
  decide

/-- C4 (amended): when the item is not yet selected and is available exactly
when it is in the base, moving it to `seleccionadas` and back leaves base,
comments, the selected list and the available membership unchanged. -/
theorem claim_C4 (g : Gestor) (item : Item)
    (h1 : item ∉ g.cotizaciones_seleccionadas)
    (h2 : item ∈ g.cotizaciones_disponibles ↔ item ∈ g.cotizaciones_base) :
    (quitar_de_seleccionadas (agregar_a_seleccionadas g item).1 item).1.cotizaciones_base
        = g.cotizaciones_base
    ∧ (quitar_de_seleccionadas (agregar_a_seleccionadas g item).1 item).1.comentarios
        = g.comentarios
    ∧ (quitar_de_seleccionadas (agregar_a_seleccionadas g item).1 item).1.cotizaciones_seleccionadas
        = g.cotizaciones_seleccionadas
    ∧ (∀ x, x ∈ (quitar_de_seleccionadas
          (agregar_a_seleccionadas g item).1 item).1.cotizaciones_disponibles
        ↔ x ∈ g.cotizaciones_disponibles) := by
  rw [agregar_of_not_mem g item h1]
  have hmem : item ∈ g.cotizaciones_seleccionadas ++ [item] := by simp
  rw [quitar_of_mem _ item hmem]
  have hsel : (g.cotizaciones_seleccionadas ++ [item]).erase item
      = g.cotizaciones_seleccionadas := by
    rw [List.erase_append_right _ h1, List.erase_cons_head, List.append_nil]
  refine ⟨rfl, rfl, hsel, ?_⟩
  intro x
  by_cases hd : item ∈ g.cotizaciones_disponibles
  · have hb : item ∈ g.cotizaciones_base := h2.mp hd
    simp only [if_pos hd]
    by_cases he : item ∈ g.cotizaciones_disponibles.erase item
    · rw [if_neg (fun hcond => hcond.2 he)]
      by_cases hx : x = item
      · subst hx
        exact ⟨fun _ => hd, fun _ => he⟩
      · exact List.mem_erase_of_ne hx
    · rw [if_pos ⟨hb, he⟩]
      by_cases hx : x = item
      · subst hx
        simp [hd]
      · rw [List.mem_append]
        simp only [List.mem_singleton, hx, or_false]
        exact List.mem_erase_of_ne hx
  · have hb : item ∉ g.cotizaciones_base := fun h => hd (h2.mpr h)
    simp only [if_neg hd]
    rw [if_neg (fun hcond => hb hcond.1)]

/-- Witness for C4 on a fresh one-item manager with nothing selected. -/
theorem claim_C4_witness :
    (quitar_de_seleccionadas (agregar_a_seleccionadas gestorW3 itemA).1 itemA).1.cotizaciones_base
        = gestorW3.cotizaciones_base
    ∧ (quitar_de_seleccionadas (agregar_a_seleccionadas gestorW3 itemA).1 itemA).1.comentarios
        = gestorW3.comentarios
    ∧ (quitar_de_seleccionadas
          (agregar_a_seleccionadas gestorW3 itemA).1 itemA).1.cotizaciones_seleccionadas
        = gestorW3.cotizaciones_seleccionadas
    ∧ (∀ x, x ∈ (quitar_de_seleccionadas
          (agregar_a_seleccionadas gestorW3 itemA).1 itemA).1.cotizaciones_disponibles
        ↔ x ∈ gestorW3.cotizaciones_disponibles) :=
  claim_C4 gestorW3 itemA (by decide) (by decide)

/-- A key outside the association list is not found. -/
theorem dictGet_eq_none_of_not_mem_keys (m : List (Item × String)) (k : Item)
    (h : k ∉ m.map Prod.fst) : dictGet m k = none := by
  induction m with
  | nil => rfl
  | cons p rest ih =>
      obtain ⟨k1, v1⟩ := p
      simp only [List.map_cons, List.mem_cons] at h
      push_neg at h
      have hne : ¬ k1 = k := fun hk => h.1 hk.symm
      simp [dictGet, hne, ih h.2]

/-- Deleting a key from a dict with unique keys removes its binding. -/
theorem dictGet_dictDel_nodup (m : List (Item × String)) (k : Item)
    (h : (m.map Prod.fst).Nodup) : dictGet (dictDel m k) k = none := by
  induction m with
  | nil => rfl
  | cons p rest ih =>
      obtain ⟨k1, v1⟩ := p
      simp only [List.map_cons, List.nodup_cons] at h
      by_cases h1 : k1 = k
      · subst h1
        simpa [dictDel] using dictGet_eq_none_of_not_mem_keys rest k1 h.1
      · simp [dictDel, dictGet, h1, ih h.2]

/-- An `eliminar_cotizacion_base` call on a present item, spelled out. -/
theorem eliminar_of_mem (g : Gestor) (item : Item)
    (h : item ∈ g.cotizaciones_base) :
    (eliminar_cotizacion_base g item).1 =
      { cotizaciones_base := g.cotizaciones_base.erase item
        cotizaciones_disponibles :=
          if item ∈ g.cotizaciones_disponibles then
            g.cotizaciones_disponibles.erase item
          else g.cotizaciones_disponibles
        cotizaciones_seleccionadas :=
          if item ∈ g.cotizaciones_seleccionadas then
            g.cotizaciones_seleccionadas.erase item
          else g.cotizaciones_seleccionadas
        comentarios :=
          if (dictGet g.comentarios item).isSome then
            dictDel g.comentarios item
          else g.comentarios } := by
  simp [eliminar_cotizacion_base, h]

/-- Counterexample to C8 as stated: starting from an empty manager, adding
the identity `("A", 10, "X")` twice leaves two copies in `base`, and one
`eliminar_cotizacion_base` call removes only the first copy — a duplicate
survives, so the call does not remove every duplicate. -/
theorem claim_C8_cex :
    ((agregar_nueva_cotizacion_base
        ((agregar_nueva_cotizacion_base
          (cargar_cotizaciones_desde_json Storage.ausente).1 "A" 10 "X").1)
        "A" 10 "X").1).cotizaciones_base = [itemA, itemA]
    ∧ ((eliminar_cotizacion_base
        ((agregar_nueva_cotizacion_base
          ((agregar_nueva_cotizacion_base
            (cargar_cotizaciones_desde_json Storage.ausente).1 "A" 10 "X").1)
          "A" 10 "X").1) itemA).1).cotizaciones_base = [itemA] := by
  decide

/-- C8 (amended): adding to the base performs no uniqueness check, so adding
an identity already present yields a duplicate (count at least two); comments
are keyed by identity, so every saved record of a duplicated identity carries
the one shared comment; `eliminar_cotizacion_base` removes only the first
occurrence of the identity from `base` and deletes the shared comment (so a
surviving duplicate keeps membership but loses its comment). -/
theorem claim_C8 :
    (∀ g nombre precio categoria,
      (agregar_nueva_cotizacion_base g nombre precio categoria).1.cotizaciones_base
        = g.cotizaciones_base
            ++ [{ nombre := nombre, precio := precio, categoria := categoria }])
    ∧ (∀ g nombre precio categoria,
        ({ nombre := nombre, precio := precio, categoria := categoria } : Item)
            ∈ g.cotizaciones_base →
        2 ≤ ((agregar_nueva_cotizacion_base g nombre precio categoria).1.cotizaciones_base.count
              { nombre := nombre, precio := precio, categoria := categoria }))
    ∧ (∀ g item r, r ∈ guardar_cotizaciones_en_json g → registroAItem r = item →
        r.comentario = some (obtener_comentario g item))
    ∧ (∀ g item, item ∈ g.cotizaciones_base →
        (eliminar_cotizacion_base g item).1.cotizaciones_base
          = g.cotizaciones_base.erase item)
    ∧ (∀ g item, (g.comentarios.map Prod.fst).Nodup → item ∈ g.cotizaciones_base →
        obtener_comentario (eliminar_cotizacion_base g item).1 item = "") := by
  refine ⟨fun g n p c => rfl, ?_, ?_, ?_, ?_⟩
  · intro g n p c h
    simp only [agregar_nueva_cotizacion_base, List.count_append]
    have h1 : 0 < g.cotizaciones_base.count
        { nombre := n, precio := p, categoria := c } := by
      rw [List.count_pos_iff]
      exact h
    have h2 : ([({ nombre := n, precio := p, categoria := c } : Item)]).count
        { nombre := n, precio := p, categoria := c } = 1 := by simp
    omega
  · intro g item r hr hid
    simp only [guardar_cotizaciones_en_json, List.mem_map] at hr
    obtain ⟨it, _, rfl⟩ := hr
    have : it = item := hid
    subst this
    rfl
  · intro g item h
    rw [eliminar_of_mem g item h]
  · intro g item hnd h
    rw [eliminar_of_mem g item h]
    by_cases hc : (dictGet g.comentarios item).isSome
    · simp only [obtener_comentario, if_pos hc]
      rw [dictGet_dictDel_nodup g.comentarios item hnd]
      rfl
    · simp only [obtener_comentario, if_neg hc]
      rw [Option.not_isSome_iff_eq_none] at hc
      rw [hc]
      rfl

/-- A manager with a duplicated identity and a shared comment on it. -/
def gestorC8 : Gestor :=
  { cotizaciones_base := [itemA, itemA]
    cotizaciones_disponibles := [itemA, itemA]
    cotizaciones_seleccionadas := []
    comentarios := [(itemA, "compartido")] }

/-- Witness for C8 on the duplicated-identity manager. -/
theorem claim_C8_witness :
    2 ≤ ((agregar_nueva_cotizacion_base gestorC8 "A" 10 "X").1.cotizaciones_base.count itemA)
    ∧ (guardar_cotizaciones_en_json gestorC8).map Registro.comentario
        = [some "compartido", some "compartido"]
    ∧ (eliminar_cotizacion_base gestorC8 itemA).1.cotizaciones_base
        = gestorC8.cotizaciones_base.erase itemA
    ∧ obtener_comentario (eliminar_cotizacion_base gestorC8 itemA).1 itemA = "" :=
  ⟨claim_C8.2.1 gestorC8 "A" 10 "X" (by decide),
   by decide,
   claim_C8.2.2.2.1 gestorC8 itemA (by decide),
   claim_C8.2.2.2.2 gestorC8 itemA (by decide) (by decide)⟩

/-- Reading back the comment dict built by the load loop: a key gets the
pushed value exactly when it occurs in the list with a non-empty comment,
and keys outside the list fall through to the initial dict. -/
theorem dictGet_foldl_load (f : Item → String) (l : List Item)
    (m0 : List (Item × String)) (k : Item) :
    dictGet (l.foldl (fun m it => if f it ≠ "" then dictSet m it (f it) else m) m0) k
      = if k ∈ l ∧ f k ≠ "" then some (f k) else dictGet m0 k := by
  induction l generalizing m0 with
  | nil => simp
  | cons hd tl ih =>
      simp only [List.foldl_cons, ih]
      by_cases htl : k ∈ tl ∧ f k ≠ ""
      · simp [htl, htl.1]
      · by_cases hk : k = hd
        · subst hk
          by_cases hf : f k = ""
          · simp [hf]
          · simp [hf, dictGet_dictSet]
        · have hmem : (k ∈ hd :: tl ∧ f k ≠ "") ↔ (k ∈ tl ∧ f k ≠ "") := by
            simp [List.mem_cons, hk]
          rw [if_neg (fun h => htl (hmem.mp h))]
          rw [if_neg (fun h => htl h)]
          by_cases hf : f hd = ""
          · simp [hf]
          · have hnk : ¬ hd = k := fun h => hk h.symm
            simp [hf, dictGet_dictSet, hnk]

/-- The reachable state refuting C2: a fresh empty manager annotated with a
comment on an identity that is not in `base`. -/
def gestorC2 : Gestor :=
  (establecer_comentario (cargar_cotizaciones_desde_json Storage.ausente).1
    itemA "perdido").1

/-- Counterexample to C2 as stated: the reachable state `gestorC2` carries a
comment on an identity outside `base`; after saving and loading from the
written storage that comment reads back as `""`, not `"perdido"` — so the
round trip does not preserve the comment of every identity. -/
theorem claim_C2_cex :
    obtener_comentario gestorC2 itemA = "perdido"
    ∧ obtener_comentario
        ((cargar_cotizaciones_desde_json
          (Storage.datos (guardar_cotizaciones_en_json gestorC2))).1) itemA = "" := by
  decide

/-- C2 (amended): saving and then loading from the written storage
reproduces `base` as the same sequence of identities and, for every identity
that is an element of `base`, the same comment as observed via
`obtener_comentario`; the written records depend only on `base` and
`comentarios`, so the available/selected partition at save time is
irrelevant (it is not persisted). -/
theorem claim_C2 :
    ∀ g : Gestor,
      ((cargar_cotizaciones_desde_json
          (Storage.datos (guardar_cotizaciones_en_json g))).1).cotizaciones_base
        = g.cotizaciones_base
      ∧ (∀ item ∈ g.cotizaciones_base,
          obtener_comentario
            ((cargar_cotizaciones_desde_json
              (Storage.datos (guardar_cotizaciones_en_json g))).1) item
            = obtener_comentario g item)
      ∧ (∀ g2 : Gestor, g2.cotizaciones_base = g.cotizaciones_base →
          g2.comentarios = g.comentarios →
          guardar_cotizaciones_en_json g2 = guardar_cotizaciones_en_json g) := by
  intro g
  refine ⟨?_, ?_, ?_⟩
  · show (guardar_cotizaciones_en_json g).map registroAItem = g.cotizaciones_base
    rw [guardar_cotizaciones_en_json, List.map_map]
    have hcomp : (registroAItem ∘ fun item : Item =>
        ({ nombre := item.nombre, precio := item.precio, categoria := item.categoria
           comentario := some ((dictGet g.comentarios item).getD "") } : Registro))
        = id := rfl
    rw [hcomp, List.map_id]
  · intro item hitem
    show (dictGet ((guardar_cotizaciones_en_json g).foldl (fun m r =>
        match r.comentario with
        | some s => if s ≠ "" then dictSet m (registroAItem r) s else m
        | none => m) []) item).getD "" = obtener_comentario g item
    rw [guardar_cotizaciones_en_json, List.foldl_map]
    have hfold : ∀ m0 : List (Item × String), ∀ l : List Item,
        l.foldl (fun m it =>
          match some ((dictGet g.comentarios it).getD "") with
          | some s => if s ≠ "" then dictSet m (registroAItem
              ({ nombre := it.nombre, precio := it.precio, categoria := it.categoria
                 comentario := some ((dictGet g.comentarios it).getD "") } : Registro)) s
            else m
          | none => m) m0
        = l.foldl (fun m it =>
            if obtener_comentario g it ≠ "" then dictSet m it (obtener_comentario g it)
            else m) m0 := by
      intro m0 l
      rfl
    rw [hfold, dictGet_foldl_load (obtener_comentario g) g.cotizaciones_base [] item]
    by_cases hf : obtener_comentario g item = ""
    · simp [hf, dictGet]
    · simp [hitem, hf]
  · intro g2 hb hc
    rw [guardar_cotizaciones_en_json, guardar_cotizaciones_en_json, hb, hc]

/-- A manager with one base item carrying a comment, for the C2 witness. -/
def gestorW2 : Gestor :=
  { cotizaciones_base := [itemA]
    cotizaciones_disponibles := []
    cotizaciones_seleccionadas := [itemA]
    comentarios := [(itemA, "nota")] }

/-- Witness for C2: the save/load round trip of `gestorW2` (whose whole base
is selected at save time) reproduces its base and the comment of its base
item. -/
theorem claim_C2_witness :
    ((cargar_cotizaciones_desde_json
        (Storage.datos (guardar_cotizaciones_en_json gestorW2))).1).cotizaciones_base
      = gestorW2.cotizaciones_base
    ∧ obtener_comentario
        ((cargar_cotizaciones_desde_json
          (Storage.datos (guardar_cotizaciones_en_json gestorW2))).1) itemA
        = obtener_comentario gestorW2 itemA :=
  ⟨(claim_C2 gestorW2).1, (claim_C2 gestorW2).2.1 itemA (by decide)⟩

/-- States reachable from a freshly loaded manager by any sequence of the
mutating manager operations with arbitrary arguments. -/
inductive Alcanzable : Gestor → Prop where
  | cargar (st : Storage) :
      Alcanzable (cargar_cotizaciones_desde_json st).1
  | filtrar {g : Gestor} (c : String) :
      Alcanzable g → Alcanzable (filtrar_disponibles_por_categoria g c).1
  | agregarSel {g : Gestor} (item : Item) :
      Alcanzable g → Alcanzable (agregar_a_seleccionadas g item).1
  | quitarSel {g : Gestor} (item : Item) :
      Alcanzable g → Alcanzable (quitar_de_seleccionadas g item).1
  | nueva {g : Gestor} :
      Alcanzable g → Alcanzable (nueva_cotizacion g)
  | agregarBase {g : Gestor} (nombre : String) (precio : Int) (categoria : String) :
      Alcanzable g → Alcanzable (agregar_nueva_cotizacion_base g nombre precio categoria).1
  | eliminarBase {g : Gestor} (item : Item) :
      Alcanzable g → Alcanzable (eliminar_cotizacion_base g item).1
  | establecer {g : Gestor} (item : Item) (s : String) :
      Alcanzable g → Alcanzable (establecer_comentario g item s).1
  | iniciales {g : Gestor} (l : List Item) :
      Alcanzable g → Alcanzable (cargar_cotizaciones_iniciales g l)

/-- As `Alcanzable`, but every `agregar_a_seleccionadas` step is applied to
an identity that is a member of `base` at call time (as the UI does, which
only offers catalog entries for selection). -/
inductive AlcanzableBase : Gestor → Prop where
  | cargar (st : Storage) :
      AlcanzableBase (cargar_cotizaciones_desde_json st).1
  | filtrar {g : Gestor} (c : String) :
      AlcanzableBase g → AlcanzableBase (filtrar_disponibles_por_categoria g c).1
  | agregarSel {g : Gestor} (item : Item) :
      AlcanzableBase g → item ∈ g.cotizaciones_base →
      AlcanzableBase (agregar_a_seleccionadas g item).1
  | quitarSel {g : Gestor} (item : Item) :
      AlcanzableBase g → AlcanzableBase (quitar_de_seleccionadas g item).1
  | nueva {g : Gestor} :
      AlcanzableBase g → AlcanzableBase (nueva_cotizacion g)
  | agregarBase {g : Gestor} (nombre : String) (precio : Int) (categoria : String) :
      AlcanzableBase g → AlcanzableBase (agregar_nueva_cotizacion_base g nombre precio categoria).1
  | eliminarBase {g : Gestor} (item : Item) :
      AlcanzableBase g → AlcanzableBase (eliminar_cotizacion_base g item).1
  | establecer {g : Gestor} (item : Item) (s : String) :
      AlcanzableBase g → AlcanzableBase (establecer_comentario g item s).1
  | iniciales {g : Gestor} (l : List Item) :
      AlcanzableBase g → AlcanzableBase (cargar_cotizaciones_iniciales g l)

/-- C10: in every reachable state the selected list has no duplicate
identities — `agregar_a_seleccionadas` refuses identities already selected,
loads and resets empty the list, and the other operations only remove from
it. -/
theorem claim_C10 (g : Gestor) (h : Alcanzable g) :
    g.cotizaciones_seleccionadas.Nodup := by
  induction h with
  | cargar st => cases st <;> simp [cargar_cotizaciones_desde_json]
  | filtrar c _ ih => exact ih
  | agregarSel item _ ih =>
      rename_i g0 _
      by_cases hmem : item ∈ g0.cotizaciones_seleccionadas
      · simpa [agregar_a_seleccionadas, hmem] using ih
      · simp [agregar_a_seleccionadas, hmem, List.nodup_append, ih]
  | quitarSel item _ ih =>
      rename_i g0 _
      by_cases hmem : item ∈ g0.cotizaciones_seleccionadas
      · simpa [quitar_de_seleccionadas, hmem] using ih.erase item
      · simpa [quitar_de_seleccionadas, hmem] using ih
  | nueva _ ih => simp [nueva_cotizacion]
  | agregarBase nombre precio categoria _ ih => exact ih
  | eliminarBase item _ ih =>
      rename_i g0 _
      by_cases hb : item ∈ g0.cotizaciones_base
      · rw [eliminar_of_mem g0 item hb]
        by_cases hmem : item ∈ g0.cotizaciones_seleccionadas
        · simpa [hmem] using ih.erase item
        · simpa [hmem] using ih
      · simpa [eliminar_cotizacion_base, hb] using ih
  | establecer item s _ ih => exact ih
  | iniciales l _ ih =>
      rename_i g0 _
      by_cases hb : g0.cotizaciones_base = []
      · by_cases hl : l = []
        · simpa [cargar_cotizaciones_iniciales, hb, hl] using ih
        · simp [cargar_cotizaciones_iniciales, hb, hl]
      · simpa [cargar_cotizaciones_iniciales, hb] using ih

/-- Witness for C10 after a load and one selection. -/
theorem claim_C10_witness :
    ((agregar_a_seleccionadas
      (cargar_cotizaciones_desde_json Storage.ausente).1 itemA).1).cotizaciones_seleccionadas.Nodup :=
  claim_C10 _ (Alcanzable.agregarSel itemA (Alcanzable.cargar Storage.ausente))

/-- Counterexample to C9 as stated: from a freshly loaded empty manager,
`agregar_a_seleccionadas` accepts an arbitrary identity without consulting
`base`, so the selected item `itemA` is in `seleccionadas` although `base`
was empty in every state of the trace — it neither is nor ever was an
element of `base`. -/
theorem claim_C9_cex :
    (cargar_cotizaciones_desde_json Storage.ausente).1.cotizaciones_base = []
    ∧ ((agregar_a_seleccionadas
        (cargar_cotizaciones_desde_json Storage.ausente).1 itemA).1).cotizaciones_base = []
    ∧ itemA ∈ ((agregar_a_seleccionadas
        (cargar_cotizaciones_desde_json Storage.ausente).1 itemA).1).cotizaciones_seleccionadas := by
  decide

/-- The joint invariant proved along restricted traces: the selected list
has no duplicates and each of its elements is in `base`. -/
theorem alcanzableBase_inv (g : Gestor) (h : AlcanzableBase g) :
    g.cotizaciones_seleccionadas.Nodup
    ∧ ∀ x ∈ g.cotizaciones_seleccionadas, x ∈ g.cotizaciones_base := by
  induction h with
  | cargar st => cases st <;> simp [cargar_cotizaciones_desde_json]
  | filtrar c _ ih => exact ih
  | agregarSel item _ hb ih =>
      rename_i g0 _
      by_cases hmem : item ∈ g0.cotizaciones_seleccionadas
      · simpa [agregar_a_seleccionadas, hmem] using ih
      · refine ⟨?_, ?_⟩
        · simp [agregar_a_seleccionadas, hmem, List.nodup_append, ih.1]
        · intro x hx
          simp only [agregar_a_seleccionadas, if_neg hmem, List.mem_append,
            List.mem_singleton] at hx ⊢
          rcases hx with hx | rfl
          · exact ih.2 x hx
          · exact hb
  | quitarSel item _ ih =>
      rename_i g0 _
      by_cases hmem : item ∈ g0.cotizaciones_seleccionadas
      · refine ⟨?_, ?_⟩
        · simpa [quitar_de_seleccionadas, hmem] using ih.1.erase item
        · intro x hx
          simp only [quitar_de_seleccionadas, hmem, not_true, if_neg,
            if_false] at hx ⊢
          exact ih.2 x (List.mem_of_mem_erase hx)
      · simpa [quitar_de_seleccionadas, hmem] using ih
  | nueva _ ih => simp [nueva_cotizacion]
  | agregarBase nombre precio categoria _ ih =>
      refine ⟨ih.1, fun x hx => ?_⟩
      exact List.mem_append_left _ (ih.2 x hx)
  | eliminarBase item _ ih =>
      rename_i g0 _
      by_cases hb : item ∈ g0.cotizaciones_base
      · rw [eliminar_of_mem g0 item hb]
        by_cases hmem : item ∈ g0.cotizaciones_seleccionadas
        · refine ⟨by simpa [hmem] using ih.1.erase item, ?_⟩
          intro x hx
          simp only [if_pos hmem] at hx
          have hx2 := (ih.1.mem_erase_iff).mp hx
          exact List.mem_erase_of_ne hx2.1 |>.mpr (ih.2 x hx2.2)
        · refine ⟨by simpa [hmem] using ih.1, ?_⟩
          intro x hx
          simp only [if_neg hmem] at hx
          have hne : x ≠ item := fun hxi => hmem (hxi ▸ hx)
          exact List.mem_erase_of_ne hne |>.mpr (ih.2 x hx)
      · simpa [eliminar_cotizacion_base, hb] using ih
  | establecer item s _ ih => exact ih
  | iniciales l _ ih =>
      rename_i g0 _
      by_cases hb : g0.cotizaciones_base = []
      · by_cases hl : l = []
        · simpa [cargar_cotizaciones_iniciales, hb, hl] using ih
        · simp [cargar_cotizaciones_iniciales, hb, hl]
      · simpa [cargar_cotizaciones_iniciales, hb] using ih

/-- C9 (amended): in every state reachable from a freshly loaded manager by
sequences in which `agregar_a_seleccionadas` is only applied to identities
that are members of `base` at call time, every element of `seleccionadas` is
an element of `base`. -/
theorem claim_C9 (g : Gestor) (h : AlcanzableBase g) :
    ∀ x ∈ g.cotizaciones_seleccionadas, x ∈ g.cotizaciones_base :=
  (alcanzableBase_inv g h).2

/-- A well-formed one-record storage for the C9 witness. -/
def registroA : Registro :=
  { nombre := "A", precio := 10, categoria := "X", comentario := none }

/-- Witness for C9: load a one-item catalog and select that item through a
base-respecting step; the selected element `itemA` is in `base`. -/
theorem claim_C9_witness :
    itemA ∈ ((agregar_a_seleccionadas
        (cargar_cotizaciones_desde_json (Storage.datos [registroA])).1 itemA).1).cotizaciones_base :=
  claim_C9 _ (AlcanzableBase.agregarSel itemA
    (AlcanzableBase.cargar (Storage.datos [registroA])) (by decide)) itemA (by decide)
